import Mathlib

/-!
Verification of the flipped-normal classifier of src/fix_flipped_normals.py.

The function fix_flipped_normals iterates over the faces of a mesh
(lines 41-63).  For each face it fetches the host-provided face normal
(getPolygonNormal), the vertex position array (getPoints) and the face's
vertex index list (getPolygonVertices), accumulates the sum of the face's
vertex positions into an MVector and divides by the vertex count to get the
face center (lines 54-57).  If the normal has positive length, the face is
flagged (appended to flipped_faces) exactly when the dot product of the
normalized normal with the face center is strictly negative (lines 60-63).

The embedding below models the Maya MVector scalar type by the real
numbers: lengths and vector normalization use Real.sqrt, exactly the
operations MVector.length() and MVector.normal() perform.  The per-face
loop becomes the pure function classify, which returns the flipped_faces
list (face indices in the order the loop appends them).  Division by zero
is total in Lean (x / 0 = 0); the only place it can occur is the center
division for an empty vertex list, and there the resulting zero center
makes the strict comparison of line 62 false, matching the fact that the
source never appends such a face.
-/

/- ### Definitions -/

/-- Maya MVector: a 3D vector with real components. -/
structure MVector where
  x : ℝ
  y : ℝ
  z : ℝ

/-- Componentwise vector addition: the center accumulation of line 56. -/
def MVector.add (a b : MVector) : MVector :=
  ⟨a.x + b.x, a.y + b.y, a.z + b.z⟩

/-- Maya's MVector * MVector operator: the dot product used on line 62. -/
def MVector.dot (a b : MVector) : ℝ :=
  a.x * b.x + a.y * b.y + a.z * b.z

/-- MVector.length(): the Euclidean norm, tested on line 60. -/
noncomputable def MVector.length (v : MVector) : ℝ :=
  Real.sqrt (v.dot v)

/-- MVector.normal(): the unit-normalized copy of the vector, line 61. -/
noncomputable def MVector.normal (v : MVector) : MVector :=
  ⟨v.x / v.length, v.y / v.length, v.z / v.length⟩

/-- Scalar multiple of a vector (used only to state scaling invariance). -/
def MVector.smul (c : ℝ) (v : MVector) : MVector :=
  ⟨c * v.x, c * v.y, c * v.z⟩

/-- The zero vector: om.MVector() of line 46, the accumulator's start. -/
def MVector.zero : MVector := ⟨0, 0, 0⟩

/-- Lines 54-56: the sum over i of vertices[vertex_list[i]], folded into
the center accumulator.  Out-of-range vertex indices (undefined behavior
in the source) read the zero vector. -/
def vsum (vertices : List MVector) (face : List ℕ) : MVector :=
  face.foldl (fun acc ix => acc.add (vertices.getD ix MVector.zero)) MVector.zero

/-- Line 57: center = center / vertex_list.length(), the componentwise
division of the accumulated sum by the vertex count. -/
noncomputable def faceCenter (vertices : List MVector) (face : List ℕ) : MVector :=
  ⟨(vsum vertices face).x / (face.length : ℝ),
   (vsum vertices face).y / (face.length : ℝ),
   (vsum vertices face).z / (face.length : ℝ)⟩

/-- Lines 60-63: face face_id is appended to flipped_faces exactly when
normal.length() > 0 and normal.normal() * center < 0. -/
def isFlipped (normal center : MVector) : Prop :=
  0 < normal.length ∧ (MVector.normal normal).dot center < 0

open Classical in
/-- The loop of lines 38-63 of fix_flipped_normals: for face_id in
range(face_count), append face_id to flipped_faces when the lines 60-63
condition holds.  face_count is the number of faces; the face's normal and
vertex list are looked up at face_id. -/
noncomputable def classify (vertices : List MVector) (faces : List (List ℕ))
    (normals : List MVector) : List ℕ :=
  (List.range faces.length).filter fun i =>
    decide (isFlipped (normals.getD i MVector.zero)
      (faceCenter vertices (faces.getD i [])))

/-- The inputs of one invocation: the mesh data fetched from the host. -/
structure MeshInputs where
  vertices : List MVector
  faces : List (List ℕ)
  normals : List MVector

/-- One full run of the classifier loop over the mesh data.  The loop body
(lines 41-63) only reads vertices, faces and normals (lines 43, 48, 51, 55)
and appends to its own local flipped_faces list (line 63); it contains no
store into the input arrays, so the run returns the mesh data it was given
together with the computed list. -/
noncomputable def classifyRun (inp : MeshInputs) : MeshInputs × List ℕ :=
  (inp, classify inp.vertices inp.faces inp.normals)

/-- The preconditions of the spec's contract: as many normals as faces,
every vertex index in range, every face non-empty. -/
def Precond (vertices : List MVector) (faces : List (List ℕ))
    (normals : List MVector) : Prop :=
  faces.length = normals.length ∧
  (∀ face ∈ faces, ∀ ix ∈ face, ix < vertices.length) ∧
  (∀ face ∈ faces, 1 ≤ face.length)

/-- Rescale the normals of the faces selected by S by the factor c; the
other normals are kept.  Used only to state scaling invariance. -/
def scaleSel (c : ℝ) (S : ℕ → Bool) (ns : List MVector) : List MVector :=
  (List.range ns.length).map fun i =>
    if S i then MVector.smul c (ns.getD i MVector.zero) else ns.getD i MVector.zero

/-- The triangle of Scenarios 1, 2 and 4: vertices (1,0,0),(0,1,0),(0,0,1). -/
def triVerts : List MVector := [⟨1, 0, 0⟩, ⟨0, 1, 0⟩, ⟨0, 0, 1⟩]

/-- The two-face batch of Scenario 4: both faces are the full triangle. -/
def triFaces : List (List ℕ) := [[0, 1, 2], [0, 1, 2]]

/-- Scenario 4's normals: face 0 carries (-1,-1,-1), face 1 carries (1,1,1). -/
def triNormals : List MVector := [⟨-1, -1, -1⟩, ⟨1, 1, 1⟩]

/-- The quad of Scenario 3: vertices (2,0,0),(2,2,0),(0,2,0),(0,0,0). -/
def quadVerts : List MVector := [⟨2, 0, 0⟩, ⟨2, 2, 0⟩, ⟨0, 2, 0⟩, ⟨0, 0, 0⟩]

/-- The quad as a single face over its four vertices. -/
def quadFaces : List (List ℕ) := [[0, 1, 2, 3]]

/-- Scenario 3's normal (0,0,1) for the single quad face. -/
def quadNormals : List MVector := [⟨0, 0, 1⟩]

/- ### Helper lemmas -/

theorem length_pos_iff (v : MVector) : 0 < v.length ↔ 0 < v.dot v := by
  unfold MVector.length
  rw [Real.sqrt_pos]

theorem dot_self_nonneg (v : MVector) : 0 ≤ v.dot v := by
  unfold MVector.dot
  nlinarith [mul_self_nonneg v.x, mul_self_nonneg v.y, mul_self_nonneg v.z]

theorem dot_normal_eq (n c : MVector) :
    (MVector.normal n).dot c = n.dot c / n.length := by
  unfold MVector.normal MVector.dot
  ring

theorem isFlipped_iff (n c : MVector) :
    isFlipped n c ↔ 0 < n.dot n ∧ n.dot c < 0 := by
  unfold isFlipped
  rw [dot_normal_eq]
  constructor
  · rintro ⟨h1, h2⟩
    refine ⟨(length_pos_iff n).mp h1, ?_⟩
    exact lt_of_not_le fun hge =>
      absurd h2 (not_lt.mpr (div_nonneg hge (le_of_lt h1)))
  · rintro ⟨h1, h2⟩
    have hL : 0 < n.length := (length_pos_iff n).mpr h1
    exact ⟨hL, div_neg_of_neg_of_pos h2 hL⟩

theorem mem_classify_iff (v : List MVector) (f : List (List ℕ))
    (ns : List MVector) (i : ℕ) :
    i ∈ classify v f ns ↔
      i < f.length ∧
        isFlipped (ns.getD i MVector.zero) (faceCenter v (f.getD i [])) := by
  unfold classify
  simp only [List.mem_filter, List.mem_range, decide_eq_true_eq]

theorem dot_smul_left (c : ℝ) (a b : MVector) :
    (MVector.smul c a).dot b = c * a.dot b := by
  unfold MVector.smul MVector.dot
  ring

theorem dot_smul_right (c : ℝ) (a b : MVector) :
    a.dot (MVector.smul c b) = c * a.dot b := by
  unfold MVector.smul MVector.dot
  ring

theorem isFlipped_smul (c : ℝ) (hc : 0 < c) (n ctr : MVector) :
    isFlipped (MVector.smul c n) ctr ↔ isFlipped n ctr := by
  rw [isFlipped_iff, isFlipped_iff, dot_smul_left, dot_smul_left, dot_smul_right]
  constructor
  · rintro ⟨h1, h2⟩
    constructor
    · by_contra hle
      push_neg at hle
      have h0 : n.dot n = 0 := le_antisymm hle (dot_self_nonneg n)
      rw [h0, mul_zero, mul_zero] at h1
      exact lt_irrefl 0 h1
    · nlinarith
  · rintro ⟨h1, h2⟩
    exact ⟨mul_pos hc (mul_pos hc h1), mul_neg_of_pos_of_neg hc h2⟩

theorem scaleSel_getD (c : ℝ) (S : ℕ → Bool) (ns : List MVector) (i : ℕ)
    (hi : i < ns.length) :
    (scaleSel c S ns).getD i MVector.zero =
      if S i then MVector.smul c (ns.getD i MVector.zero)
      else ns.getD i MVector.zero := by
  unfold scaleSel
  rw [List.getD_eq_getElem?_getD, List.getElem?_map, List.getElem?_range hi]
  rfl

theorem triCenter :
    faceCenter triVerts [0, 1, 2] = ⟨1 / 3, 1 / 3, 1 / 3⟩ := by
  unfold faceCenter vsum triVerts MVector.add MVector.zero
  simp only [List.foldl_cons, List.foldl_nil, List.getD_cons_zero,
    List.getD_cons_succ, List.length_cons, List.length_nil]
  norm_num

theorem quadCenter :
    faceCenter quadVerts [0, 1, 2, 3] = ⟨1, 1, 0⟩ := by
  unfold faceCenter vsum quadVerts MVector.add MVector.zero
  simp only [List.foldl_cons, List.foldl_nil, List.getD_cons_zero,
    List.getD_cons_succ, List.length_cons, List.length_nil]
  norm_num

theorem triFlipped0 : isFlipped ⟨-1, -1, -1⟩ ⟨1 / 3, 1 / 3, 1 / 3⟩ := by
  rw [isFlipped_iff]
  unfold MVector.dot
  norm_num

theorem triNotFlipped1 : ¬ isFlipped ⟨1, 1, 1⟩ ⟨1 / 3, 1 / 3, 1 / 3⟩ := by
  rw [isFlipped_iff]
  rintro ⟨-, h⟩
  unfold MVector.dot at h
  norm_num at h

theorem triPrecond : Precond triVerts triFaces triNormals := by
  unfold Precond triVerts triFaces triNormals
  refine ⟨rfl, ?_, ?_⟩ <;> decide

/- ### Claims -/

/-- C1: for every face i with a non-empty vertex list and a nonzero-length
normal, face i is flagged by classify if and only if the dot product of the
unit-normalized normal with the face center (the average of the face's
vertices) is strictly negative; the decision depends only on that dot
product's sign. -/
theorem flag_iff_dot_neg (v : List MVector) (f : List (List ℕ))
    (ns : List MVector) (i : ℕ) (hi : i < f.length)
    (hne : f.getD i [] ≠ []) (hn : 0 < (ns.getD i MVector.zero).length) :
    i ∈ classify v f ns ↔
      (MVector.normal (ns.getD i MVector.zero)).dot
        (faceCenter v (f.getD i [])) < 0 := by
  rw [mem_classify_iff]
  unfold isFlipped
  constructor
  · rintro ⟨-, -, h⟩
    exact h
  · intro h
    exact ⟨hi, hn, h⟩

/-- Witness for C1: face 0 of the Scenario 4 batch has a non-empty vertex
list and the nonzero normal (-1,-1,-1), and it is flagged exactly because
its unit normal dotted with its center is negative. -/
theorem flag_iff_dot_neg_witness :
    0 < triFaces.length ∧ triFaces.getD 0 [] ≠ [] ∧
      0 < (triNormals.getD 0 MVector.zero).length ∧
      (0 ∈ classify triVerts triFaces triNormals ↔
        (MVector.normal (triNormals.getD 0 MVector.zero)).dot
          (faceCenter triVerts (triFaces.getD 0 [])) < 0) := by
  have hn : 0 < (triNormals.getD 0 MVector.zero).length := by
    have h0 : triNormals.getD 0 MVector.zero = ⟨-1, -1, -1⟩ := rfl
    rw [h0, length_pos_iff]
    unfold MVector.dot
    norm_num
  exact ⟨by decide, by decide, hn,
    flag_iff_dot_neg triVerts triFaces triNormals 0 (by decide) (by decide) hn⟩

/-- C2: a face whose vertex list is empty is never flagged, regardless of
its normal; the embedded run is total, so no error is raised on it. -/
theorem empty_face_not_flagged (v : List MVector) (f : List (List ℕ))
    (ns : List MVector) (i : ℕ) (h : f.getD i [] = []) :
    i ∉ classify v f ns := by
  rw [mem_classify_iff]
  rintro ⟨-, hf⟩
  rw [isFlipped_iff] at hf
  rcases hf with ⟨-, hd⟩
  rw [h] at hd
  norm_num [faceCenter, vsum, MVector.dot, MVector.zero] at hd

/-- Witness for C2: the single face with empty vertex list and the nonzero
normal (0,0,1) is not flagged. -/
theorem empty_face_not_flagged_witness :
    List.getD [([] : List ℕ)] 0 [] = [] ∧
      0 ∉ classify ([] : List MVector) [[]] [⟨0, 0, 1⟩] :=
  ⟨rfl, empty_face_not_flagged ([] : List MVector) [[]] [⟨0, 0, 1⟩] 0 rfl⟩

/-- C3: on input satisfying the preconditions the classifier runs to
completion (the embedding is a total function) and returns a list of face
indices, each a valid index into the face list. -/
theorem classify_total (v : List MVector) (f : List (List ℕ))
    (ns : List MVector) (h : Precond v f ns) :
    ∃ r : List ℕ, classify v f ns = r ∧ ∀ j ∈ r, j < f.length :=
  ⟨classify v f ns, rfl, fun j hj => ((mem_classify_iff v f ns j).mp hj).1⟩

/-- Witness for C3: the Scenario 4 batch satisfies the preconditions and
classify returns a list of valid face indices on it. -/
theorem classify_total_witness :
    Precond triVerts triFaces triNormals ∧
      ∃ r : List ℕ, classify triVerts triFaces triNormals = r ∧
        ∀ j ∈ r, j < triFaces.length :=
  ⟨triPrecond, classify_total triVerts triFaces triNormals triPrecond⟩

/-- C4: a face whose normal has zero length is never flagged, regardless of
the geometry; no error is surfaced. -/
theorem zero_length_normal_not_flagged (v : List MVector) (f : List (List ℕ))
    (ns : List MVector) (i : ℕ)
    (h : (ns.getD i MVector.zero).length = 0) :
    i ∉ classify v f ns := by
  rw [mem_classify_iff]
  rintro ⟨-, hf⟩
  unfold isFlipped at hf
  rw [h] at hf
  exact lt_irrefl 0 hf.1

/-- Witness for C4: the quad face given the degenerate normal (0,0,0) is
not flagged. -/
theorem zero_length_normal_not_flagged_witness :
    (List.getD [(⟨0, 0, 0⟩ : MVector)] 0 MVector.zero).length = 0 ∧
      0 ∉ classify quadVerts quadFaces [⟨0, 0, 0⟩] := by
  have h : (List.getD [(⟨0, 0, 0⟩ : MVector)] 0 MVector.zero).length = 0 := by
    show MVector.length ⟨0, 0, 0⟩ = 0
    unfold MVector.length MVector.dot
    norm_num
  exact ⟨h, zero_length_normal_not_flagged quadVerts quadFaces [⟨0, 0, 0⟩] 0 h⟩

/-- C5: a face whose unit-normal-to-center dot product is exactly zero is
not flagged: the test of line 62 is the strict comparison d < 0. -/
theorem zero_dot_not_flagged (v : List MVector) (f : List (List ℕ))
    (ns : List MVector) (i : ℕ)
    (h : (MVector.normal (ns.getD i MVector.zero)).dot
      (faceCenter v (f.getD i [])) = 0) :
    i ∉ classify v f ns := by
  rw [mem_classify_iff]
  rintro ⟨-, hf⟩
  unfold isFlipped at hf
  rw [h] at hf
  exact lt_irrefl 0 hf.2

/-- Witness for C5: Scenario 3's quad with vertices
(2,0,0),(2,2,0),(0,2,0),(0,0,0) and normal (0,0,1) has dot product exactly
zero and is not flagged. -/
theorem zero_dot_not_flagged_witness :
    (MVector.normal (quadNormals.getD 0 MVector.zero)).dot
        (faceCenter quadVerts (quadFaces.getD 0 [])) = 0 ∧
      0 ∉ classify quadVerts quadFaces quadNormals := by
  have h : (MVector.normal (quadNormals.getD 0 MVector.zero)).dot
      (faceCenter quadVerts (quadFaces.getD 0 [])) = 0 := by
    have hq : quadFaces.getD 0 [] = [0, 1, 2, 3] := rfl
    have hqn : quadNormals.getD 0 MVector.zero = ⟨0, 0, 1⟩ := rfl
    rw [hq, hqn, quadCenter]
    unfold MVector.normal MVector.length MVector.dot
    norm_num
  exact ⟨h, zero_dot_not_flagged quadVerts quadFaces quadNormals 0 h⟩

open Classical in
/-- C6: on the two-face batch where face 0 is the triangle
(1,0,0),(0,1,0),(0,0,1) with normal (-1,-1,-1) and face 1 is the same
triangle with normal (1,1,1), classify returns exactly [0]: face 0 is
flagged and face 1 is not. -/
theorem classify_batch_scenario :
    classify triVerts triFaces triNormals = [0] := by
  have hr : List.range triFaces.length = [0, 1] := rfl
  have hg0 : triFaces.getD 0 [] = [0, 1, 2] := rfl
  have hg1 : triFaces.getD 1 [] = [0, 1, 2] := rfl
  have hn0 : triNormals.getD 0 MVector.zero = ⟨-1, -1, -1⟩ := rfl
  have hn1 : triNormals.getD 1 MVector.zero = ⟨1, 1, 1⟩ := rfl
  unfold classify
  rw [hr]
  simp only [List.filter_cons, List.filter_nil]
  rw [hg0, hg1, hn0, hn1, triCenter]
  rw [decide_eq_true triFlipped0, decide_eq_false triNotFlipped1]
  simp

/-- C7: running classify twice on unchanged input yields the identical
flagged list: the inputs coming out of the first run feed the second run
and produce the same result. -/
theorem classify_idempotent (inp : MeshInputs) :
    (classifyRun ((classifyRun inp).1)).2 = (classifyRun inp).2 := rfl

/-- C8: the classifier does not mutate its inputs: after a run, the vertex
positions, the face index lists and the normals are the ones passed in. -/
theorem classify_no_mutation (inp : MeshInputs) :
    (classifyRun inp).1.vertices = inp.vertices ∧
      (classifyRun inp).1.faces = inp.faces ∧
      (classifyRun inp).1.normals = inp.normals :=
  ⟨rfl, rfl, rfl⟩

/-- C9: on input satisfying the preconditions, every flagged index is a
valid face index, no index appears twice, and the list is in strictly
increasing order of face index. -/
theorem classify_output_wellformed (v : List MVector) (f : List (List ℕ))
    (ns : List MVector) (h : Precond v f ns) :
    (∀ j ∈ classify v f ns, j < f.length) ∧
      (classify v f ns).Nodup ∧ List.Sorted (· < ·) (classify v f ns) := by
  refine ⟨fun j hj => ((mem_classify_iff v f ns j).mp hj).1, ?_, ?_⟩
  · exact List.Nodup.filter _ (List.nodup_range f.length)
  · exact List.Pairwise.filter _ (List.pairwise_lt_range f.length)

/-- Witness for C9: the Scenario 4 batch satisfies the preconditions, and
its flagged list is bounded, duplicate-free and strictly increasing. -/
theorem classify_output_wellformed_witness :
    Precond triVerts triFaces triNormals ∧
      ((∀ j ∈ classify triVerts triFaces triNormals, j < triFaces.length) ∧
        (classify triVerts triFaces triNormals).Nodup ∧
        List.Sorted (· < ·) (classify triVerts triFaces triNormals)) :=
  ⟨triPrecond,
    classify_output_wellformed triVerts triFaces triNormals triPrecond⟩

/-- C10: positive scaling invariance: on input satisfying the
preconditions, multiplying the normals of any subset of the faces by any
scalar c > 0 leaves the flagged list unchanged, since only the sign of the
dot product with the unit-normalized normal is tested. -/
theorem classify_scale_invariant (v : List MVector) (f : List (List ℕ))
    (ns : List MVector) (c : ℝ) (S : ℕ → Bool)
    (hpre : Precond v f ns) (hc : 0 < c) :
    classify v f (scaleSel c S ns) = classify v f ns := by
  unfold classify
  apply List.filter_congr
  intro i hi
  rw [List.mem_range] at hi
  have hilen : i < ns.length := hpre.1 ▸ hi
  simp only [decide_eq_decide]
  rw [scaleSel_getD c S ns i hilen]
  by_cases hS : S i = true
  · rw [if_pos hS]
    exact isFlipped_smul c hc _ _
  · rw [if_neg hS]

/-- Witness for C10: doubling every normal of the Scenario 4 batch leaves
the flagged list unchanged. -/
theorem classify_scale_invariant_witness :
    Precond triVerts triFaces triNormals ∧ (0 : ℝ) < 2 ∧
      classify triVerts triFaces (scaleSel 2 (fun _ => true) triNormals) =
        classify triVerts triFaces triNormals :=
  ⟨triPrecond, by norm_num,
    classify_scale_invariant triVerts triFaces triNormals 2 (fun _ => true)
      triPrecond (by norm_num)⟩
